import Mathlib

/-!
Shallow embedding of the KJBot trading engine (`backend/trading_engine.py`).

Numbers are modelled as rationals (`ℚ`); Python dict fields that may be
absent are `Option`s.  Every gateway (network) call the engine attempts is
recorded in a trace (`List GCall`); the environment `Env` fixes the venue's
response to each kind of call, with `Option`/tagged values standing for
calls that raise.  Python string operations are modelled on the underlying
character lists.
-/

namespace KJBot

attribute [local semireducible] Rat.mul Rat.add Rat.sub Rat.inv

/-- Removes every (left-to-right, non-overlapping) occurrence of the
two-character pattern `.P`, as Python `str.replace(".P", "")` does. -/
def stripDotP : List Char → List Char
  | [] => []
  | '.' :: 'P' :: t => stripDotP t
  | c :: t => c :: stripDotP t

/-- `symbol.replace(".P", "").upper()` (trading_engine.py lines 83 and 157). -/
def stripUpper (s : String) : String :=
  String.mk ((stripDotP s.data).map Char.toUpper)

/-- Python `str.lower()` (ASCII suffices for exchange names). -/
def lowerStr (s : String) : String :=
  String.mk (s.data.map Char.toLower)

/-- Does `pat` lead the list `l`? -/
def charsLeads : List Char → List Char → Bool
  | [], _ => true
  | _ :: _, [] => false
  | a :: as, b :: bs => a == b && charsLeads as bs

/-- Does `pat` occur somewhere inside `l`?  Models Python `pat in s`. -/
def charsWithin (pat : List Char) : List Char → Bool
  | [] => charsLeads pat []
  | c :: t => charsLeads pat (c :: t) || charsWithin pat t

/-- Python `"entry" in action` (trading_engine.py line 106). -/
def hasEntryToken (s : String) : Bool :=
  charsWithin "entry".data s.data

/-- Python `s.endswith(t)`. -/
def endsWithStr (s t : String) : Bool :=
  charsLeads t.data.reverse s.data.reverse

/-- Python `len(s)`. -/
def strLen (s : String) : Nat := s.data.length

/-- Python `s[:-n]`. -/
def dropRightStr (s : String) (n : Nat) : String :=
  String.mk (s.data.take (s.data.length - n))

/-- Round-half-to-even to an integer (Python `round(x)` on exact values). -/
def halfEvenInt (x : ℚ) : ℤ :=
  if x - ⌊x⌋ < 1/2 then ⌊x⌋
  else if 1/2 < x - ⌊x⌋ then ⌊x⌋ + 1
  else if ⌊x⌋ % 2 = 0 then ⌊x⌋ else ⌊x⌋ + 1

/-- Python `round(x, 2)` on exact (rational) values. -/
def pyRound2 (x : ℚ) : ℚ := (halfEvenInt (x * 100) : ℚ) / 100

/-- A TradingView signal: the dict handed to `execute_signal`.  Each field
models the presence/absence of the corresponding dict key. -/
structure Signal where
  action : Option String
  symbol : Option String
  exchange : Option String
  leverage : Option ℚ
  amount : Option ℚ
  percent : Option ℚ
deriving Repr, DecidableEq

/-- A venue-reported position, as consumed by `_get_position`. -/
structure Position where
  side : String
  contracts : ℚ
deriving Repr, DecidableEq

/-- Response of the venue to `fetch_balance`: the call raises (`err`), or
returns a balance table in which the `USDT` free entry is present or not. -/
inductive BalanceResp
  | err
  | ok (freeUSDT : Option ℚ)
deriving Repr, DecidableEq

/-- One attempted gateway call, as recorded in the execution trace. -/
inductive GCall
  | fetchBalance
  | loadMarkets
  | fetchPositions (syms : List String)
  | setLeverage (lev : ℚ) (sym : String)
  | fetchTicker (sym : String)
  | marketBuy (sym : String) (qty : ℚ) (reduceOnly : Bool)
  | marketSell (sym : String) (qty : ℚ) (reduceOnly : Bool)
deriving Repr, DecidableEq

/-- Is the call a reduce-only market buy? -/
def GCall.isRoBuy : GCall → Bool
  | .marketBuy _ _ true => true
  | _ => false

/-- Is the call a plain (non-reduce-only) market buy? -/
def GCall.isPlainBuy : GCall → Bool
  | .marketBuy _ _ false => true
  | _ => false

/-- Is the call a reduce-only market sell? -/
def GCall.isRoSell : GCall → Bool
  | .marketSell _ _ true => true
  | _ => false

/-- Is the call a plain (non-reduce-only) market sell? -/
def GCall.isPlainSell : GCall → Bool
  | .marketSell _ _ false => true
  | _ => false

/-- Is the call any market buy? -/
def GCall.isBuy : GCall → Bool
  | .marketBuy _ _ _ => true
  | _ => false

/-- Is the call any market sell? -/
def GCall.isSell : GCall → Bool
  | .marketSell _ _ _ => true
  | _ => false

/-- Is the call an order placement of either side? -/
def GCall.isOrder : GCall → Bool
  | .marketBuy _ _ _ => true
  | .marketSell _ _ _ => true
  | _ => false

/-- Quantity carried by an order call (0 for non-orders). -/
def GCall.qty : GCall → ℚ
  | .marketBuy _ q _ => q
  | .marketSell _ q _ => q
  | _ => 0

/-- The venue environment: a fixed response for each kind of gateway call
the engine may attempt during one signal.  `none`/`err` mean the call
raises; the `buyOk`/`sellOk` predicates say whether an order placement
returns a receipt or raises. -/
structure Env where
  isBinance : Bool
  marketsOk : Bool
  markets : List (String × String)
  balance : BalanceResp
  positionsResp : Option (List Position)
  tickerLast : Option ℚ
  buyOk : String → ℚ → Bool → Bool
  sellOk : String → ℚ → Bool → Bool

/-- The trading section of the merged configuration. -/
structure Config where
  enableTrading : Bool
  defaultLeverage : ℚ
deriving Repr, DecidableEq

/-- Result dict produced by the engine for every signal. -/
structure ExecResult where
  success : Bool
  message : String
  sig : Signal
deriving Repr, DecidableEq

/-- Dict lookup in the loaded market table: `markets[k]['id']`. -/
def lookupMarket (markets : List (String × String)) (k : String) : Option String :=
  (markets.find? (fun p => p.1 == k)).map (fun p => p.2)

/-- The market id returned by `_normalize_symbol` (lines 152-186): strip the
`.P` marker and upper-case; on Binance, load markets and try a direct key,
then the unified `BASE/USDT:USDT` form when the ticker ends in `USDT` and is
longer than 4 characters, falling back to the stripped ticker; if
`load_markets` raises, the `except` branch re-strips the already stripped
symbol. -/
def normalizeSymbolId (env : Env) (symbol : String) : String :=
  let s := stripUpper symbol
  if env.isBinance then
    if env.marketsOk then
      match lookupMarket env.markets s with
      | some id => id
      | none =>
        if strLen s > 4 && endsWithStr s "USDT" then
          match lookupMarket env.markets (dropRightStr s 4 ++ "/USDT:USDT") with
          | some id => id
          | none => s
        else s
    else stripUpper s
  else s

/-- `_normalize_symbol` with its trace: on Binance exactly one
`load_markets` call is attempted (it is the only raising call there). -/
def normalizeSymbol (env : Env) (symbol : String) : String × List GCall :=
  (normalizeSymbolId env symbol, if env.isBinance then [GCall.loadMarkets] else [])

/-- The position `_get_position` (lines 188-200) returns: the first
side-matching entry of the fetched list when its `contracts` is positive;
`None` on a fetch error or when nothing matches. -/
def getPositionOpt (env : Env) (side : String) : Option Position :=
  match env.positionsResp with
  | none => none
  | some ps =>
    match ps.find? (fun p => p.side == side) with
    | none => none
    | some p => if 0 < p.contracts then some p else none

/-- `_get_position` with its trace: one symbol normalization followed by one
`fetch_positions` call on the normalized symbol. -/
def getPosition (env : Env) (symbol side : String) : Option Position × List GCall :=
  (getPositionOpt env side,
    (normalizeSymbol env symbol).2 ++ [GCall.fetchPositions [(normalizeSymbol env symbol).1]])

/-! Result messages.  Interpolated runtime values (percent figures,
exception texts) are elided from the message constants; where a claim
depends on one message embedding another, the composition is kept. -/

def disabledMsg : String := "⚠️ 거래가 비활성화되어 있습니다"
def notConnectedMsg : String := "❌ 거래소가 연결되지 않았습니다"
def execErrorMsg : String := "❌ 실행 오류"
def unknownActionMsg : String := "❌ 알 수 없는 액션"
def alreadyLongMsg : String := "⚠️ 이미 롱 포지션이 있습니다. 분할 청산(long_exit)을 사용하세요."
def alreadyShortMsg : String := "⚠️ 이미 숏 포지션이 있습니다. 분할 청산(short_exit)을 사용하세요."
def flipShortFailPrefix : String := "❌ 기존 숏 포지션 청산 실패: "
def flipLongFailPrefix : String := "❌ 기존 롱 포지션 청산 실패: "
def invalidPercentMsg : String := "⚠️ 청산 비율은 1-100% 사이여야 합니다"
def noLongPosMsg : String := "ℹ️ 청산할 롱 포지션이 없습니다 (이미 처리됨)"
def noShortPosMsg : String := "ℹ️ 청산할 숏 포지션이 없습니다 (이미 처리됨)"
def exitQtyNonposMsg : String := "⚠️ 계산된 청산 수량이 0 이하입니다"
def longExitOkMsg : String := "🟢 롱 청산 성공"
def shortExitOkMsg : String := "🔴 숏 청산 성공"
def longExitFailMsg : String := "❌ 롱 청산 실패"
def shortExitFailMsg : String := "❌ 숏 청산 실패"
def longEntryOkMsg : String := "🟢 롱 진입 성공"
def longEntryFailMsg : String := "❌ 롱 진입 실패"
def shortEntryOkMsg : String := "🔴 숏 진입 성공"
def shortEntryFailMsg : String := "❌ 숏 진입 실패"

/-- `_execute_long_exit` (lines 358-430): validate the percent range,
resolve the long position (absent position is idempotent success), compute
the close quantity, validate it, clamp it to the position size, and place a
reduce-only market sell; an order exception becomes a failed result. -/
def longExit (env : Env) (symbol : String) (signal : Signal) : ExecResult × List GCall :=
  let percent := signal.percent.getD 100
  if percent ≤ 0 ∨ 100 < percent then
    ({ success := false, message := invalidPercentMsg, sig := signal }, [])
  else
    let (posOpt, tr1) := getPosition env symbol "long"
    match posOpt with
    | none => ({ success := true, message := noLongPosMsg, sig := signal }, tr1)
    | some pos =>
      let positionSize := pos.contracts
      let closeQuantity := positionSize * (percent / 100)
      if closeQuantity ≤ 0 then
        ({ success := false, message := exitQtyNonposMsg, sig := signal }, tr1)
      else
        let closeQuantity := if positionSize < closeQuantity then positionSize else closeQuantity
        let (ns, tr2) := normalizeSymbol env symbol
        let tr := tr1 ++ tr2 ++ [GCall.marketSell ns closeQuantity true]
        if env.sellOk ns closeQuantity true then
          ({ success := true, message := longExitOkMsg, sig := signal }, tr)
        else
          ({ success := false, message := longExitFailMsg, sig := signal }, tr)

/-- `_execute_short_exit` (lines 432-504): mirror of the long exit, closing
with a reduce-only market buy. -/
def shortExit (env : Env) (symbol : String) (signal : Signal) : ExecResult × List GCall :=
  let percent := signal.percent.getD 100
  if percent ≤ 0 ∨ 100 < percent then
    ({ success := false, message := invalidPercentMsg, sig := signal }, [])
  else
    let (posOpt, tr1) := getPosition env symbol "short"
    match posOpt with
    | none => ({ success := true, message := noShortPosMsg, sig := signal }, tr1)
    | some pos =>
      let positionSize := pos.contracts
      let closeQuantity := positionSize * (percent / 100)
      if closeQuantity ≤ 0 then
        ({ success := false, message := exitQtyNonposMsg, sig := signal }, tr1)
      else
        let closeQuantity := if positionSize < closeQuantity then positionSize else closeQuantity
        let (ns, tr2) := normalizeSymbol env symbol
        let tr := tr1 ++ tr2 ++ [GCall.marketBuy ns closeQuantity true]
        if env.buyOk ns closeQuantity true then
          ({ success := true, message := shortExitOkMsg, sig := signal }, tr)
        else
          ({ success := false, message := shortExitFailMsg, sig := signal }, tr)

/-- The synthetic `{"percent": 100}` dict passed to the opposite-side exit
during a flip (lines 220 and 298); it carries no other keys. -/
def synthPercent100 : Signal :=
  { action := none, symbol := none, exchange := none,
    leverage := none, amount := none, percent := some 100 }

/-- Lines 229-270 of `_execute_long_entry`: resolve leverage and notional
amount with their defaults, normalize the symbol, best-effort set leverage
(Binance only, failures swallowed), fetch the price, compute
`(amount * leverage) / price` and place a market buy.  A zero price models
the `ZeroDivisionError` path; a missing price models a ticker failure. -/
def longEntryOrder (cfg : Config) (env : Env) (symbol : String) (signal : Signal) :
    ExecResult × List GCall :=
  let leverage := signal.leverage.getD cfg.defaultLeverage
  let amountUsdt := signal.amount.getD 100
  let (ns, trN) := normalizeSymbol env symbol
  let trLev := if env.isBinance then [GCall.setLeverage leverage ns] else []
  match env.tickerLast with
  | none =>
    ({ success := false, message := longEntryFailMsg, sig := signal },
      trN ++ trLev ++ [GCall.fetchTicker ns])
  | some price =>
    if price = 0 then
      ({ success := false, message := longEntryFailMsg, sig := signal },
        trN ++ trLev ++ [GCall.fetchTicker ns])
    else
      let quantity := amountUsdt * leverage / price
      let tr := trN ++ trLev ++ [GCall.fetchTicker ns, GCall.marketBuy ns quantity false]
      if env.buyOk ns quantity false then
        ({ success := true, message := longEntryOkMsg, sig := signal }, tr)
      else
        ({ success := false, message := longEntryFailMsg, sig := signal }, tr)

/-- Lines 307-348 of `_execute_short_entry`: mirror of `longEntryOrder`,
placing a market sell. -/
def shortEntryOrder (cfg : Config) (env : Env) (symbol : String) (signal : Signal) :
    ExecResult × List GCall :=
  let leverage := signal.leverage.getD cfg.defaultLeverage
  let amountUsdt := signal.amount.getD 100
  let (ns, trN) := normalizeSymbol env symbol
  let trLev := if env.isBinance then [GCall.setLeverage leverage ns] else []
  match env.tickerLast with
  | none =>
    ({ success := false, message := shortEntryFailMsg, sig := signal },
      trN ++ trLev ++ [GCall.fetchTicker ns])
  | some price =>
    if price = 0 then
      ({ success := false, message := shortEntryFailMsg, sig := signal },
        trN ++ trLev ++ [GCall.fetchTicker ns])
    else
      let quantity := amountUsdt * leverage / price
      let tr := trN ++ trLev ++ [GCall.fetchTicker ns, GCall.marketSell ns quantity false]
      if env.sellOk ns quantity false then
        ({ success := true, message := shortEntryOkMsg, sig := signal }, tr)
      else
        ({ success := false, message := shortEntryFailMsg, sig := signal }, tr)

/-- `_execute_long_entry` (lines 202-278): fetch both positions, block a
duplicate long, flip an open short via a synthetic 100% short exit
(aborting on its failure), then place the entry order. -/
def longEntry (cfg : Config) (env : Env) (symbol : String) (signal : Signal) :
    ExecResult × List GCall :=
  let (longPos, trL) := getPosition env symbol "long"
  let (shortPos, trS) := getPosition env symbol "short"
  let tr0 := trL ++ trS
  match longPos with
  | some _ => ({ success := false, message := alreadyLongMsg, sig := signal }, tr0)
  | none =>
    match shortPos with
    | some _ =>
      let (closeRes, trC) := shortExit env symbol synthPercent100
      if closeRes.success then
        let (res, trE) := longEntryOrder cfg env symbol signal
        (res, tr0 ++ trC ++ trE)
      else
        ({ success := false, message := flipShortFailPrefix ++ closeRes.message, sig := signal },
          tr0 ++ trC)
    | none =>
      let (res, trE) := longEntryOrder cfg env symbol signal
      (res, tr0 ++ trE)

/-- `_execute_short_entry` (lines 280-356): mirror of `longEntry`. -/
def shortEntry (cfg : Config) (env : Env) (symbol : String) (signal : Signal) :
    ExecResult × List GCall :=
  let (longPos, trL) := getPosition env symbol "long"
  let (shortPos, trS) := getPosition env symbol "short"
  let tr0 := trL ++ trS
  match shortPos with
  | some _ => ({ success := false, message := alreadyShortMsg, sig := signal }, tr0)
  | none =>
    match longPos with
    | some _ =>
      let (closeRes, trC) := longExit env symbol synthPercent100
      if closeRes.success then
        let (res, trE) := shortEntryOrder cfg env symbol signal
        (res, tr0 ++ trC ++ trE)
      else
        ({ success := false, message := flipLongFailPrefix ++ closeRes.message, sig := signal },
          tr0 ++ trC)
    | none =>
      let (res, trE) := shortEntryOrder cfg env symbol signal
      (res, tr0 ++ trE)

/-- The compound-mode block of `execute_signal` (lines 105-126): when
`percent` is present, `amount` absent and the action contains `entry`, fetch
the balance and write the computed amount into the signal dict; a missing
`USDT` entry or a raised fetch falls back to a fixed 100.  Returns `none`
when the block itself raises out of the handler (the `"entry" in action`
test on a missing action raises `TypeError` before any call). -/
def applyCompound (env : Env) (signal : Signal) : Option Signal × List GCall :=
  if signal.percent.isSome && signal.amount.isNone then
    match signal.action with
    | none => (none, [])
    | some a =>
      if hasEntryToken a then
        match signal.percent with
        | none => (some signal, [])
        | some p =>
          match env.balance with
          | .err => (some { signal with amount := some 100 }, [GCall.fetchBalance])
          | .ok none => (some { signal with amount := some 100 }, [GCall.fetchBalance])
          | .ok (some free) =>
            let calculated := free * (p / 100)
            let calculated := if calculated < 10 then 11 else calculated
            (some { signal with amount := some (pyRound2 calculated) }, [GCall.fetchBalance])
      else (some signal, [])
  else (some signal, [])

/-- The action dispatch of `execute_signal` (lines 129-142). -/
def dispatchAction (cfg : Config) (env : Env) (symbol : String) (s : Signal) :
    ExecResult × List GCall :=
  match s.action with
  | some "long_entry" => longEntry cfg env symbol s
  | some "short_entry" => shortEntry cfg env symbol s
  | some "long_exit" => longExit env symbol s
  | some "short_exit" => shortExit env symbol s
  | _ => ({ success := false, message := unknownActionMsg, sig := s }, [])

/-- `exchange_name` of `execute_signal` line 78. -/
def exchangeName (signal : Signal) : String :=
  lowerStr (signal.exchange.getD "binance")

/-- The symbol local variable handed to the handlers (lines 77-83): the
`.P` strip and upper-casing is applied early when the named exchange is
binance. -/
def dispatchSymbol (signal : Signal) : String :=
  if exchangeName signal == "binance" then stripUpper (signal.symbol.getD "BTCUSDT")
  else signal.symbol.getD "BTCUSDT"

/-- `execute_signal` (lines 58-150): refuse when trading is disabled or the
exchange is not connected, run the compound-mode block, then dispatch on
the action.  `connected` is the key set of the exchange registry. -/
def executeSignal (cfg : Config) (connected : List String) (env : Env) (signal : Signal) :
    ExecResult × List GCall :=
  if !cfg.enableTrading then
    ({ success := false, message := disabledMsg, sig := signal }, [])
  else if !(connected.contains (exchangeName signal)) then
    ({ success := false, message := notConnectedMsg, sig := signal }, [])
  else
    match applyCompound env signal with
    | (none, tr) => ({ success := false, message := execErrorMsg, sig := signal }, tr)
    | (some s, tr) =>
      let (res, trD) := dispatchAction cfg env (dispatchSymbol signal) s
      (res, tr ++ trD)

/-- Modelled from the claim's wording (spec §4.2, testable property §8):
"strip the `.P` suffix and upper-case" — removes the marker only when it is
a suffix, then upper-cases.  Compare with `stripUpper`, which is what the
code does. -/
def specSuffixStripUpper (s : String) : String :=
  String.mk (((if endsWithStr s ".P" then dropRightStr s 2 else s).data).map Char.toUpper)

/-- A scratch environment with an empty book: no markets, no positions, a
1000 USDT free balance, a price of 50, and orders that always succeed. -/
def envScratch : Env :=
  { isBinance := true, marketsOk := true, markets := [],
    balance := .ok (some 1000), positionsResp := some [],
    tickerLast := some 50,
    buyOk := fun _ _ _ => true, sellOk := fun _ _ _ => true }

/-! ### General lemmas about the embedding -/

example : stripUpper "BTC.PUSDT" = "BTCUSDT" := by decide
example : stripUpper "gasusdt.p" = "GASUSDT.P" := by decide
example : stripUpper "GASUSDT.P" = "GASUSDT" := by decide
example : hasEntryToken "long_entry" = true := by decide
example : hasEntryToken "long_exit" = false := by decide
example : endsWithStr "GASUSDT" "USDT" = true := by decide
example : dropRightStr "GASUSDT" 4 = "GAS" := by decide
example : pyRound2 (1000001/20000 : ℚ) = 50 := by norm_num [pyRound2, halfEvenInt]
example : pyRound2 11 = 11 := by norm_num [pyRound2, halfEvenInt]
example : pyRound2 (1000001/20000 : ℚ) = 50 := by decide
example : pyRound2 1500 = 1500 := by decide

example :
    (executeSignal ⟨true, 10⟩ ["binance"] envScratch
      { action := some "long_entry", symbol := some "BTCUSDT", exchange := none,
        leverage := some 10, amount := none, percent := some 150 }).2
      = [GCall.fetchBalance, GCall.loadMarkets, GCall.fetchPositions ["BTCUSDT"],
         GCall.loadMarkets, GCall.fetchPositions ["BTCUSDT"], GCall.loadMarkets,
         GCall.setLeverage 10 "BTCUSDT", GCall.fetchTicker "BTCUSDT",
         GCall.marketBuy "BTCUSDT" 300 false] := by
  decide

theorem getPositionOpt_pos {env : Env} {side : String} {pos : Position}
    (h : getPositionOpt env side = some pos) : 0 < pos.contracts := by
  unfold getPositionOpt at h
  rcases henv : env.positionsResp with _ | ps <;> rw [henv] at h
  · exact Option.noConfusion h
  · dsimp only at h
    rcases hf : List.find? (fun p => p.side == side) ps with _ | q <;> rw [hf] at h
    · exact Option.noConfusion h
    · dsimp only at h
      by_cases hq : 0 < q.contracts
      · rw [if_pos hq] at h
        have h2 := Option.some.inj h
        subst h2
        exact hq
      · rw [if_neg hq] at h
        exact Option.noConfusion h

theorem getPosition_fst (env : Env) (s side : String) :
    (getPosition env s side).1 = getPositionOpt env side := rfl

theorem normalizeSymbol_snd (env : Env) (s : String) :
    (normalizeSymbol env s).2 = if env.isBinance then [GCall.loadMarkets] else [] := rfl

theorem filter_normTr (env : Env) (s : String) (p : GCall → Bool)
    (hp : p GCall.loadMarkets = false) :
    ((normalizeSymbol env s).2).filter p = [] := by
  rw [normalizeSymbol_snd]
  by_cases hb : env.isBinance <;> simp [hb, hp]

theorem filter_getPosTr (env : Env) (s side : String) (p : GCall → Bool)
    (hp1 : p GCall.loadMarkets = false) (hp2 : ∀ l, p (GCall.fetchPositions l) = false) :
    ((getPosition env s side).2).filter p = [] := by
  have h2 : (getPosition env s side).2
      = (normalizeSymbol env s).2 ++ [GCall.fetchPositions [(normalizeSymbol env s).1]] := rfl
  rw [h2, List.filter_append, filter_normTr env s p hp1]
  simp [hp2]

/-- Exhaustive case split on the compound-mode block: it leaves the signal
alone, raises (missing action), or writes some amount after one balance
fetch. -/
theorem applyCompound_cases (env : Env) (sig : Signal) :
    applyCompound env sig = (some sig, [])
    ∨ (sig.action = none ∧ applyCompound env sig = (none, []))
    ∨ (sig.amount = none
        ∧ ∃ v, applyCompound env sig = (some { sig with amount := some v }, [GCall.fetchBalance])) := by
  unfold applyCompound
  by_cases h1 : (sig.percent.isSome && sig.amount.isNone) = true
  · rw [if_pos h1]
    have hamt : sig.amount = none := by
      rcases Bool.and_eq_true_iff.mp h1 with ⟨_, h⟩
      exact Option.isNone_iff_eq_none.mp h
    cases ha : sig.action with
    | none => exact Or.inr (Or.inl ⟨rfl, rfl⟩)
    | some a =>
      dsimp only
      by_cases h2 : hasEntryToken a = true
      · rw [if_pos h2]
        cases hp : sig.percent with
        | none => exact Or.inl rfl
        | some p =>
          cases hb : env.balance with
          | err => exact Or.inr (Or.inr ⟨hamt, 100, rfl⟩)
          | ok fo =>
            cases fo with
            | none => exact Or.inr (Or.inr ⟨hamt, 100, rfl⟩)
            | some free => exact Or.inr (Or.inr ⟨hamt, _, rfl⟩)
      · rw [if_neg h2]
        exact Or.inl rfl
  · rw [if_neg h1]
    exact Or.inl rfl

theorem filter_compoundTr (env : Env) (sig : Signal) (p : GCall → Bool)
    (hp : p GCall.fetchBalance = false) :
    ((applyCompound env sig).2).filter p = [] := by
  rcases applyCompound_cases env sig with h | ⟨_, h⟩ | ⟨_, _, h⟩ <;> rw [h] <;> simp [hp]

theorem applyCompound_none {env : Env} {sig : Signal}
    (h : (applyCompound env sig).1 = none) : sig.action = none := by
  rcases applyCompound_cases env sig with h' | ⟨ha, _⟩ | ⟨_, _, h'⟩
  · rw [h'] at h
    exact Option.noConfusion h
  · exact ha
  · rw [h'] at h
    exact Option.noConfusion h

theorem applyCompound_fields {env : Env} {sig s' : Signal}
    (h : (applyCompound env sig).1 = some s') :
    s'.action = sig.action ∧ s'.symbol = sig.symbol ∧ s'.exchange = sig.exchange
      ∧ s'.leverage = sig.leverage ∧ s'.percent = sig.percent := by
  rcases applyCompound_cases env sig with h' | ⟨_, h'⟩ | ⟨_, v, h'⟩ <;> rw [h'] at h
  · have h2 := Option.some.inj h
    subst h2
    exact ⟨rfl, rfl, rfl, rfl, rfl⟩
  · exact Option.noConfusion h
  · have h2 := Option.some.inj h
    subst h2
    exact ⟨rfl, rfl, rfl, rfl, rfl⟩

theorem executeSignal_dispatch {cfg : Config} {conn : List String} {env : Env}
    {sig s' : Signal}
    (hen : cfg.enableTrading = true) (hc : conn.contains (exchangeName sig) = true)
    (hs : (applyCompound env sig).1 = some s') :
    executeSignal cfg conn env sig
      = ((dispatchAction cfg env (dispatchSymbol sig) s').1,
         (applyCompound env sig).2 ++ (dispatchAction cfg env (dispatchSymbol sig) s').2) := by
  have hpair : applyCompound env sig = (some s', (applyCompound env sig).2) := by
    rw [← hs]
  unfold executeSignal
  rw [hen, hc, hpair]
  rcases hd : dispatchAction cfg env (dispatchSymbol sig) s' with ⟨res, trD⟩
  simp [hd]

theorem longExit_sig (env : Env) (sym : String) (sig : Signal) :
    (longExit env sym sig).1.sig = sig := by
  dsimp only [longExit, getPosition, normalizeSymbol]
  repeat' split
  all_goals rfl

theorem shortExit_sig (env : Env) (sym : String) (sig : Signal) :
    (shortExit env sym sig).1.sig = sig := by
  dsimp only [shortExit, getPosition, normalizeSymbol]
  repeat' split
  all_goals rfl

theorem longEntryOrder_sig (cfg : Config) (env : Env) (sym : String) (sig : Signal) :
    (longEntryOrder cfg env sym sig).1.sig = sig := by
  dsimp only [longEntryOrder, normalizeSymbol]
  repeat' split
  all_goals rfl

theorem shortEntryOrder_sig (cfg : Config) (env : Env) (sym : String) (sig : Signal) :
    (shortEntryOrder cfg env sym sig).1.sig = sig := by
  dsimp only [shortEntryOrder, normalizeSymbol]
  repeat' split
  all_goals rfl

theorem longEntry_sig (cfg : Config) (env : Env) (sym : String) (sig : Signal) :
    (longEntry cfg env sym sig).1.sig = sig := by
  dsimp only [longEntry, getPosition, normalizeSymbol]
  rcases hse : shortExit env sym synthPercent100 with ⟨cr, trC⟩
  rcases hoe : longEntryOrder cfg env sym sig with ⟨res, trE⟩
  have hres : res.sig = sig := by rw [← longEntryOrder_sig cfg env sym sig, hoe]
  repeat' split
  all_goals simp [hse, hoe, hres]

theorem shortEntry_sig (cfg : Config) (env : Env) (sym : String) (sig : Signal) :
    (shortEntry cfg env sym sig).1.sig = sig := by
  dsimp only [shortEntry, getPosition, normalizeSymbol]
  rcases hse : longExit env sym synthPercent100 with ⟨cr, trC⟩
  rcases hoe : shortEntryOrder cfg env sym sig with ⟨res, trE⟩
  have hres : res.sig = sig := by rw [← shortEntryOrder_sig cfg env sym sig, hoe]
  repeat' split
  all_goals simp [hse, hoe, hres]

theorem dispatchAction_sig (cfg : Config) (env : Env) (sym : String) (s : Signal) :
    (dispatchAction cfg env sym s).1.sig = s := by
  unfold dispatchAction
  repeat' split
  · apply longEntry_sig
  · apply shortEntry_sig
  · apply longExit_sig
  · apply shortExit_sig
  · rfl

theorem applyCompound_of_action {env : Env} {sig : Signal} {a : String}
    (ha : sig.action = some a) :
    ∃ s' trB, applyCompound env sig = (some s', trB)
      ∧ s'.action = some a ∧ s'.percent = sig.percent
      ∧ (trB = [] ∨ trB = [GCall.fetchBalance]) := by
  rcases applyCompound_cases env sig with h | ⟨hnone, _⟩ | ⟨hamt, v, h⟩
  · exact ⟨sig, [], h, ha, rfl, Or.inl rfl⟩
  · rw [ha] at hnone
    exact Option.noConfusion hnone
  · exact ⟨_, _, h, ha, rfl, Or.inr rfl⟩

theorem applyCompound_nonentry (env : Env) {sig : Signal} {a : String}
    (ha : sig.action = some a) (hne : hasEntryToken a = false) :
    applyCompound env sig = (some sig, []) := by
  unfold applyCompound
  by_cases h1 : (sig.percent.isSome && sig.amount.isNone) = true
  · rw [if_pos h1, ha]
    dsimp only
    rw [hne]
    simp
  · rw [if_neg h1]

theorem dispatchAction_long_entry {cfg : Config} {env : Env} {sym : String} {s : Signal}
    (h : s.action = some "long_entry") :
    dispatchAction cfg env sym s = longEntry cfg env sym s := by
  unfold dispatchAction
  rw [h]
  rfl

theorem dispatchAction_short_entry {cfg : Config} {env : Env} {sym : String} {s : Signal}
    (h : s.action = some "short_entry") :
    dispatchAction cfg env sym s = shortEntry cfg env sym s := by
  unfold dispatchAction
  rw [h]
  rfl

theorem dispatchAction_long_exit {cfg : Config} {env : Env} {sym : String} {s : Signal}
    (h : s.action = some "long_exit") :
    dispatchAction cfg env sym s = longExit env sym s := by
  unfold dispatchAction
  rw [h]
  rfl

theorem dispatchAction_short_exit {cfg : Config} {env : Env} {sym : String} {s : Signal}
    (h : s.action = some "short_exit") :
    dispatchAction cfg env sym s = shortExit env sym s := by
  unfold dispatchAction
  rw [h]
  rfl

theorem longEntry_dup {cfg : Config} {env : Env} {sym : String} {sig : Signal} {pos : Position}
    (hpos : getPositionOpt env "long" = some pos) :
    longEntry cfg env sym sig
      = ({ success := false, message := alreadyLongMsg, sig := sig },
         (getPosition env sym "long").2 ++ (getPosition env sym "short").2) := by
  dsimp only [longEntry, getPosition]
  rw [hpos]

theorem shortEntry_dup {cfg : Config} {env : Env} {sym : String} {sig : Signal} {pos : Position}
    (hpos : getPositionOpt env "short" = some pos) :
    shortEntry cfg env sym sig
      = ({ success := false, message := alreadyShortMsg, sig := sig },
         (getPosition env sym "long").2 ++ (getPosition env sym "short").2) := by
  dsimp only [shortEntry, getPosition]
  rw [hpos]

theorem longExit_no_pos {env : Env} {sym : String} {sig : Signal}
    (hp1 : 0 < sig.percent.getD 100) (hp2 : sig.percent.getD 100 ≤ 100)
    (hnone : getPositionOpt env "long" = none) :
    longExit env sym sig
      = ({ success := true, message := noLongPosMsg, sig := sig },
         (getPosition env sym "long").2) := by
  dsimp only [longExit, getPosition]
  rw [if_neg (by push_neg; exact ⟨hp1, hp2⟩), hnone]

theorem shortExit_no_pos {env : Env} {sym : String} {sig : Signal}
    (hp1 : 0 < sig.percent.getD 100) (hp2 : sig.percent.getD 100 ≤ 100)
    (hnone : getPositionOpt env "short" = none) :
    shortExit env sym sig
      = ({ success := true, message := noShortPosMsg, sig := sig },
         (getPosition env sym "short").2) := by
  dsimp only [shortExit, getPosition]
  rw [if_neg (by push_neg; exact ⟨hp1, hp2⟩), hnone]

/-! ### Claim C6 -/

/-- Claim C6: a long-entry (resp. short-entry) signal dispatched while a
long (resp. short) position with positive contracts is already open for the
symbol returns `success = false` and never calls `createMarketBuyOrder`
(resp. `createMarketSellOrder`): the trace contains no market buy (resp.
sell) call, so a single signal can never open a duplicate same-direction
position. -/
theorem C6_duplicate_direction_guard (cfg : Config) (conn : List String) (env : Env)
    (sig : Signal) (pos : Position)
    (hen : cfg.enableTrading = true) (hc : conn.contains (exchangeName sig) = true) :
    (sig.action = some "long_entry" → getPositionOpt env "long" = some pos →
      (executeSignal cfg conn env sig).1.success = false
        ∧ ((executeSignal cfg conn env sig).2).filter GCall.isBuy = [])
    ∧ (sig.action = some "short_entry" → getPositionOpt env "short" = some pos →
      (executeSignal cfg conn env sig).1.success = false
        ∧ ((executeSignal cfg conn env sig).2).filter GCall.isSell = []) := by
  constructor
  · intro hact hpos
    obtain ⟨s', trB, hAC, hact', hpct, hTB⟩ := applyCompound_of_action hact
    have hs1 : (applyCompound env sig).1 = some s' := by rw [hAC]
    have hd := executeSignal_dispatch hen hc hs1
    rw [hd, dispatchAction_long_entry hact', longEntry_dup hpos]
    refine ⟨rfl, ?_⟩
    have e1 := filter_compoundTr env sig GCall.isBuy rfl
    have e2 := filter_getPosTr env (dispatchSymbol sig) "long" GCall.isBuy rfl (fun _ => rfl)
    have e3 := filter_getPosTr env (dispatchSymbol sig) "short" GCall.isBuy rfl (fun _ => rfl)
    simp [List.filter_append, e1, e2, e3]
  · intro hact hpos
    obtain ⟨s', trB, hAC, hact', hpct, hTB⟩ := applyCompound_of_action hact
    have hs1 : (applyCompound env sig).1 = some s' := by rw [hAC]
    have hd := executeSignal_dispatch hen hc hs1
    rw [hd, dispatchAction_short_entry hact', shortEntry_dup hpos]
    refine ⟨rfl, ?_⟩
    have e1 := filter_compoundTr env sig GCall.isSell rfl
    have e2 := filter_getPosTr env (dispatchSymbol sig) "long" GCall.isSell rfl (fun _ => rfl)
    have e3 := filter_getPosTr env (dispatchSymbol sig) "short" GCall.isSell rfl (fun _ => rfl)
    simp [List.filter_append, e1, e2, e3]

/-- Witness for C6 at a concrete input: a long entry over an open 2-contract
long position is refused with no buy call. -/
theorem C6_duplicate_direction_guard_witness :
    (executeSignal ⟨true, 10⟩ ["binance"] { envScratch with positionsResp := some [⟨"long", 2⟩] }
        { action := some "long_entry", symbol := some "BTCUSDT", exchange := none,
          leverage := none, amount := some 100, percent := none }).1.success = false
    ∧ ((executeSignal ⟨true, 10⟩ ["binance"] { envScratch with positionsResp := some [⟨"long", 2⟩] }
        { action := some "long_entry", symbol := some "BTCUSDT", exchange := none,
          leverage := none, amount := some 100, percent := none }).2).filter GCall.isBuy = [] :=
  (C6_duplicate_direction_guard ⟨true, 10⟩ ["binance"]
    { envScratch with positionsResp := some [⟨"long", 2⟩] }
    { action := some "long_entry", symbol := some "BTCUSDT", exchange := none,
      leverage := none, amount := some 100, percent := none }
    ⟨"long", 2⟩ rfl (by decide)).1 rfl (by decide)

/-! ### Claim C7 -/

/-- Claim C7: a long-exit (resp. short-exit) signal with a valid percent
for which no matching open position is found — including a failed position
fetch, which `_get_position` maps to `none` — returns `success = true` with
the informational message and places no order. -/
theorem C7_exit_without_position (cfg : Config) (conn : List String) (env : Env)
    (sig : Signal)
    (hen : cfg.enableTrading = true) (hc : conn.contains (exchangeName sig) = true)
    (hp1 : 0 < sig.percent.getD 100) (hp2 : sig.percent.getD 100 ≤ 100) :
    (sig.action = some "long_exit" → getPositionOpt env "long" = none →
      (executeSignal cfg conn env sig).1
          = { success := true, message := noLongPosMsg, sig := sig }
        ∧ ((executeSignal cfg conn env sig).2).filter GCall.isOrder = [])
    ∧ (sig.action = some "short_exit" → getPositionOpt env "short" = none →
      (executeSignal cfg conn env sig).1
          = { success := true, message := noShortPosMsg, sig := sig }
        ∧ ((executeSignal cfg conn env sig).2).filter GCall.isOrder = []) := by
  constructor
  · intro hact hnone
    have hAC := applyCompound_nonentry env hact (by decide)
    have hs1 : (applyCompound env sig).1 = some sig := by rw [hAC]
    have hd := executeSignal_dispatch hen hc hs1
    rw [hd, dispatchAction_long_exit hact, longExit_no_pos hp1 hp2 hnone]
    refine ⟨rfl, ?_⟩
    have e2 := filter_getPosTr env (dispatchSymbol sig) "long" GCall.isOrder rfl (fun _ => rfl)
    simp [hAC, List.filter_append, e2]
  · intro hact hnone
    have hAC := applyCompound_nonentry env hact (by decide)
    have hs1 : (applyCompound env sig).1 = some sig := by rw [hAC]
    have hd := executeSignal_dispatch hen hc hs1
    rw [hd, dispatchAction_short_exit hact, shortExit_no_pos hp1 hp2 hnone]
    refine ⟨rfl, ?_⟩
    have e2 := filter_getPosTr env (dispatchSymbol sig) "short" GCall.isOrder rfl (fun _ => rfl)
    simp [hAC, List.filter_append, e2]

/-- Witness for C7 at a concrete input: a long exit while the position
fetch fails (no position resolvable) is an idempotent success with no
order. -/
theorem C7_exit_without_position_witness :
    (executeSignal ⟨true, 10⟩ ["binance"] { envScratch with positionsResp := none }
        { action := some "long_exit", symbol := some "BTCUSDT", exchange := none,
          leverage := none, amount := none, percent := none }).1
        = { success := true, message := noLongPosMsg,
            sig := { action := some "long_exit", symbol := some "BTCUSDT", exchange := none,
                     leverage := none, amount := none, percent := none } }
    ∧ ((executeSignal ⟨true, 10⟩ ["binance"] { envScratch with positionsResp := none }
        { action := some "long_exit", symbol := some "BTCUSDT", exchange := none,
          leverage := none, amount := none, percent := none }).2).filter GCall.isOrder = [] :=
  (C7_exit_without_position ⟨true, 10⟩ ["binance"] { envScratch with positionsResp := none }
    { action := some "long_exit", symbol := some "BTCUSDT", exchange := none,
      leverage := none, amount := none, percent := none }
    rfl (by decide) (by decide) (by decide)).1 rfl rfl

theorem applyCompound_skip_percent (env : Env) {sig : Signal} (h : sig.percent = none) :
    applyCompound env sig = (some sig, []) := by
  unfold applyCompound
  simp [h]

theorem applyCompound_skip_amount (env : Env) {sig : Signal} (h : sig.amount.isSome = true) :
    applyCompound env sig = (some sig, []) := by
  have h2 : sig.amount.isNone = false := by
    rcases ham : sig.amount with _ | v <;> simp_all
  unfold applyCompound
  simp [h2]

theorem longExit_bad_percent {env : Env} {sym : String} {sig : Signal} {p : ℚ}
    (hp : sig.percent = some p) (hrange : p ≤ 0 ∨ 100 < p) :
    longExit env sym sig
      = ({ success := false, message := invalidPercentMsg, sig := sig }, []) := by
  dsimp only [longExit, getPosition]
  rw [hp]
  dsimp only [Option.getD_some]
  rw [if_pos hrange]

theorem shortExit_bad_percent {env : Env} {sym : String} {sig : Signal} {p : ℚ}
    (hp : sig.percent = some p) (hrange : p ≤ 0 ∨ 100 < p) :
    shortExit env sym sig
      = ({ success := false, message := invalidPercentMsg, sig := sig }, []) := by
  dsimp only [shortExit, getPosition]
  rw [hp]
  dsimp only [Option.getD_some]
  rw [if_pos hrange]

theorem longEntry_no_pos {cfg : Config} {env : Env} {sym : String} {sig : Signal}
    (hlong : getPositionOpt env "long" = none) (hshort : getPositionOpt env "short" = none) :
    longEntry cfg env sym sig
      = ((longEntryOrder cfg env sym sig).1,
         (getPosition env sym "long").2 ++ (getPosition env sym "short").2
           ++ (longEntryOrder cfg env sym sig).2) := by
  dsimp only [longEntry, getPosition]
  rw [hlong, hshort]

theorem shortEntry_no_pos {cfg : Config} {env : Env} {sym : String} {sig : Signal}
    (hlong : getPositionOpt env "long" = none) (hshort : getPositionOpt env "short" = none) :
    shortEntry cfg env sym sig
      = ((shortEntryOrder cfg env sym sig).1,
         (getPosition env sym "long").2 ++ (getPosition env sym "short").2
           ++ (shortEntryOrder cfg env sym sig).2) := by
  dsimp only [shortEntry, getPosition]
  rw [hlong, hshort]

theorem longEntryOrder_run {cfg : Config} {env : Env} {sym : String} {sig : Signal} {price : ℚ}
    (ht : env.tickerLast = some price) (hpz : ¬(price = 0)) :
    longEntryOrder cfg env sym sig
      = (if env.buyOk (normalizeSymbolId env sym)
              (sig.amount.getD 100 * sig.leverage.getD cfg.defaultLeverage / price) false
           then { success := true, message := longEntryOkMsg, sig := sig }
           else { success := false, message := longEntryFailMsg, sig := sig },
         (normalizeSymbol env sym).2
           ++ (if env.isBinance
                then [GCall.setLeverage (sig.leverage.getD cfg.defaultLeverage)
                        (normalizeSymbolId env sym)]
                else [])
           ++ [GCall.fetchTicker (normalizeSymbolId env sym),
               GCall.marketBuy (normalizeSymbolId env sym)
                 (sig.amount.getD 100 * sig.leverage.getD cfg.defaultLeverage / price) false]) := by
  dsimp only [longEntryOrder, normalizeSymbol]
  rw [ht]
  dsimp only
  rw [if_neg hpz]
  by_cases hb : env.buyOk (normalizeSymbolId env sym)
      (sig.amount.getD 100 * sig.leverage.getD cfg.defaultLeverage / price) false = true
  · rw [if_pos hb, if_pos hb]
  · rw [if_neg hb, if_neg hb]

theorem shortEntryOrder_run {cfg : Config} {env : Env} {sym : String} {sig : Signal} {price : ℚ}
    (ht : env.tickerLast = some price) (hpz : ¬(price = 0)) :
    shortEntryOrder cfg env sym sig
      = (if env.sellOk (normalizeSymbolId env sym)
              (sig.amount.getD 100 * sig.leverage.getD cfg.defaultLeverage / price) false
           then { success := true, message := shortEntryOkMsg, sig := sig }
           else { success := false, message := shortEntryFailMsg, sig := sig },
         (normalizeSymbol env sym).2
           ++ (if env.isBinance
                then [GCall.setLeverage (sig.leverage.getD cfg.defaultLeverage)
                        (normalizeSymbolId env sym)]
                else [])
           ++ [GCall.fetchTicker (normalizeSymbolId env sym),
               GCall.marketSell (normalizeSymbolId env sym)
                 (sig.amount.getD 100 * sig.leverage.getD cfg.defaultLeverage / price) false]) := by
  dsimp only [shortEntryOrder, normalizeSymbol]
  rw [ht]
  dsimp only
  rw [if_neg hpz]
  by_cases hb : env.sellOk (normalizeSymbolId env sym)
      (sig.amount.getD 100 * sig.leverage.getD cfg.defaultLeverage / price) false = true
  · rw [if_pos hb, if_pos hb]
  · rw [if_neg hb, if_neg hb]

/-! ### Claim C2 -/

/-- Counterexample to C2 as stated: a long-entry signal with `percent = 150`
(out of range) and no `amount` is not rejected — the engine fetches the
balance (a gateway call), sizes the entry from it and places the buy
order, returning success. -/
theorem C2_counterexample :
    (executeSignal ⟨true, 10⟩ ["binance"] envScratch
        { action := some "long_entry", symbol := some "BTCUSDT", exchange := none,
          leverage := some 10, amount := none, percent := some 150 }).1.success = true
    ∧ ((executeSignal ⟨true, 10⟩ ["binance"] envScratch
        { action := some "long_entry", symbol := some "BTCUSDT", exchange := none,
          leverage := some 10, amount := none, percent := some 150 }).2).head?
        = some GCall.fetchBalance
    ∧ GCall.marketBuy "BTCUSDT" 300 false
        ∈ (executeSignal ⟨true, 10⟩ ["binance"] envScratch
        { action := some "long_entry", symbol := some "BTCUSDT", exchange := none,
          leverage := some 10, amount := none, percent := some 150 }).2 :=
  ⟨by decide, by decide, by decide⟩

/-- Claim C2 (amended): only the exit handlers validate the percent range.
An exit signal carrying `percent = p` with `p ≤ 0` or `p > 100` (trading
enabled, exchange connected) is rejected as a validation failure with an
empty gateway trace; percent-based entry sizing performs no such
validation (see the counterexample). -/
theorem C2_amended_exit_percent_validation (cfg : Config) (conn : List String)
    (env : Env) (sig : Signal) (p : ℚ)
    (hen : cfg.enableTrading = true) (hc : conn.contains (exchangeName sig) = true)
    (hp : sig.percent = some p) (hrange : p ≤ 0 ∨ 100 < p) :
    (sig.action = some "long_exit" →
      executeSignal cfg conn env sig
        = ({ success := false, message := invalidPercentMsg, sig := sig }, []))
    ∧ (sig.action = some "short_exit" →
      executeSignal cfg conn env sig
        = ({ success := false, message := invalidPercentMsg, sig := sig }, [])) := by
  constructor
  · intro hact
    have hAC := applyCompound_nonentry env hact (by decide)
    have hs1 : (applyCompound env sig).1 = some sig := by rw [hAC]
    have hd := executeSignal_dispatch hen hc hs1
    rw [hd, dispatchAction_long_exit hact, longExit_bad_percent hp hrange]
    simp [hAC]
  · intro hact
    have hAC := applyCompound_nonentry env hact (by decide)
    have hs1 : (applyCompound env sig).1 = some sig := by rw [hAC]
    have hd := executeSignal_dispatch hen hc hs1
    rw [hd, dispatchAction_short_exit hact, shortExit_bad_percent hp hrange]
    simp [hAC]

/-- Witness for the amended C2 at a concrete input: a long exit with
`percent = 150` fails validation with no gateway call. -/
theorem C2_amended_exit_percent_validation_witness :
    executeSignal ⟨true, 10⟩ ["binance"] envScratch
        { action := some "long_exit", symbol := some "BTCUSDT", exchange := none,
          leverage := none, amount := none, percent := some 150 }
      = ({ success := false, message := invalidPercentMsg,
           sig := { action := some "long_exit", symbol := some "BTCUSDT", exchange := none,
                    leverage := none, amount := none, percent := some 150 } }, []) :=
  (C2_amended_exit_percent_validation ⟨true, 10⟩ ["binance"] envScratch
    { action := some "long_exit", symbol := some "BTCUSDT", exchange := none,
      leverage := none, amount := none, percent := some 150 } 150
    rfl (by decide) rfl (by decide)).1 rfl

/-! ### Claim C10 -/

/-- Claim C10: an entry signal carrying neither `amount` nor `percent` is
not rejected: the engine proceeds with the default notional of 100 quote
units and the configured default leverage (no `leverage` field), placing a
market order of quantity `100 * defaultLeverage / price`; when the order
call succeeds the result is a success. -/
theorem C10_default_amount_and_leverage (cfg : Config) (conn : List String)
    (env : Env) (sig : Signal) (price : ℚ)
    (hen : cfg.enableTrading = true) (hc : conn.contains (exchangeName sig) = true)
    (hamt : sig.amount = none) (hpct : sig.percent = none) (hlev : sig.leverage = none)
    (hlong : getPositionOpt env "long" = none) (hshort : getPositionOpt env "short" = none)
    (ht : env.tickerLast = some price) (hpz : ¬(price = 0)) :
    (sig.action = some "long_entry" →
      GCall.marketBuy (normalizeSymbolId env (dispatchSymbol sig))
          (100 * cfg.defaultLeverage / price) false
        ∈ (executeSignal cfg conn env sig).2
      ∧ (env.buyOk (normalizeSymbolId env (dispatchSymbol sig))
            (100 * cfg.defaultLeverage / price) false = true →
          (executeSignal cfg conn env sig).1.success = true))
    ∧ (sig.action = some "short_entry" →
      GCall.marketSell (normalizeSymbolId env (dispatchSymbol sig))
          (100 * cfg.defaultLeverage / price) false
        ∈ (executeSignal cfg conn env sig).2
      ∧ (env.sellOk (normalizeSymbolId env (dispatchSymbol sig))
            (100 * cfg.defaultLeverage / price) false = true →
          (executeSignal cfg conn env sig).1.success = true)) := by
  have hAC := applyCompound_skip_percent env hpct
  have hs1 : (applyCompound env sig).1 = some sig := by rw [hAC]
  constructor
  · intro hact
    have hd := executeSignal_dispatch hen hc hs1
    rw [hd, dispatchAction_long_entry hact, longEntry_no_pos hlong hshort,
        longEntryOrder_run ht hpz]
    rw [hamt, hlev]
    simp only [Option.getD_none]
    constructor
    · simp [hAC, List.mem_append]
    · intro hb
      simp [hb]
  · intro hact
    have hd := executeSignal_dispatch hen hc hs1
    rw [hd, dispatchAction_short_entry hact, shortEntry_no_pos hlong hshort,
        shortEntryOrder_run ht hpz]
    rw [hamt, hlev]
    simp only [Option.getD_none]
    constructor
    · simp [hAC, List.mem_append]
    · intro hb
      simp [hb]

/-- Witness for C10 at a concrete input: an entry with no amount, percent
or leverage places a buy of `100 * 10 / 50 = 20` and succeeds. -/
theorem C10_default_amount_and_leverage_witness :
    GCall.marketBuy "BTCUSDT" (100 * (10 : ℚ) / 50) false
        ∈ (executeSignal ⟨true, 10⟩ ["binance"] envScratch
          { action := some "long_entry", symbol := some "BTCUSDT", exchange := none,
            leverage := none, amount := none, percent := none }).2
    ∧ ((fun _ _ _ => true : String → ℚ → Bool → Bool) "BTCUSDT" (100 * (10 : ℚ) / 50) false = true →
        (executeSignal ⟨true, 10⟩ ["binance"] envScratch
          { action := some "long_entry", symbol := some "BTCUSDT", exchange := none,
            leverage := none, amount := none, percent := none }).1.success = true) :=
  (C10_default_amount_and_leverage ⟨true, 10⟩ ["binance"] envScratch
    { action := some "long_entry", symbol := some "BTCUSDT", exchange := none,
      leverage := none, amount := none, percent := none } 50
    rfl (by decide) rfl rfl rfl rfl rfl rfl (by decide)).1 rfl

theorem normTr_no_order {env : Env} {s : String} {c : GCall}
    (hm : c ∈ (normalizeSymbol env s).2) : c.isOrder = false := by
  rw [normalizeSymbol_snd] at hm
  rcases hb : env.isBinance <;> rw [hb] at hm <;> simp_all [GCall.isOrder]

theorem getPosTr_no_order {env : Env} {s side : String} {c : GCall}
    (hm : c ∈ (getPosition env s side).2) : c.isOrder = false := by
  have h2 : (getPosition env s side).2
      = (normalizeSymbol env s).2 ++ [GCall.fetchPositions [(normalizeSymbol env s).1]] := rfl
  rw [h2] at hm
  rcases List.mem_append.mp hm with h | h
  · exact normTr_no_order h
  · simp_all [GCall.isOrder]

/-! ### Claim C4 -/

/-- Counterexample to C4 as stated: a long entry with `amount = 0` computes
quantity `0 * 10 / 50 = 0`, yet the engine places the market buy with
quantity 0 on the venue and reports success — there is no quantity guard on
the entry path. -/
theorem C4_counterexample :
    (executeSignal ⟨true, 10⟩ ["binance"] envScratch
        { action := some "long_entry", symbol := some "BTCUSDT", exchange := none,
          leverage := some 10, amount := some 0, percent := none }).1.success = true
    ∧ GCall.marketBuy "BTCUSDT" 0 false
        ∈ (executeSignal ⟨true, 10⟩ ["binance"] envScratch
        { action := some "long_entry", symbol := some "BTCUSDT", exchange := none,
          leverage := some 10, amount := some 0, percent := none }).2 :=
  ⟨by decide, by decide⟩

/-- Claim C4 (amended): only the exit handlers enforce the positive-quantity
invariant.  Every order an exit handler ever submits has quantity `> 0`
(the percent validation, the positive reported position size and the
explicit `close_quantity <= 0` guard make a nonpositive close quantity
unreachable); the entry handlers have no such guard and will submit a
nonpositive-quantity order (see the counterexample). -/
theorem C4_amended_exit_positive_quantity (env : Env) (sym : String) (sig : Signal) :
    (∀ c ∈ (longExit env sym sig).2, c.isOrder = true → 0 < c.qty)
    ∧ (∀ c ∈ (shortExit env sym sig).2, c.isOrder = true → 0 < c.qty) := by
  constructor
  · intro c hm hord
    dsimp only [longExit, getPosition] at hm
    by_cases h1 : (sig.percent.getD 100 ≤ 0 ∨ 100 < sig.percent.getD 100)
    · rw [if_pos h1] at hm
      simp at hm
    · rw [if_neg h1] at hm
      rcases hgp : getPositionOpt env "long" with _ | pos <;> rw [hgp] at hm
      · rw [getPosTr_no_order (show c ∈ (getPosition env sym "long").2 from hm)] at hord
        exact Bool.noConfusion hord
      · dsimp only at hm
        by_cases h2 : pos.contracts * (sig.percent.getD 100 / 100) ≤ 0
        · rw [if_pos h2] at hm
          rw [getPosTr_no_order (show c ∈ (getPosition env sym "long").2 from hm)] at hord
          exact Bool.noConfusion hord
        · rw [if_neg h2] at hm
          push_neg at h2
          rw [apply_ite Prod.snd, ite_self] at hm
          rcases List.mem_append.mp hm with hm' | hm'
          · rcases List.mem_append.mp hm' with hm'' | hm''
            · rw [getPosTr_no_order (show c ∈ (getPosition env sym "long").2 from hm'')] at hord
              exact Bool.noConfusion hord
            · rw [normTr_no_order hm''] at hord
              exact Bool.noConfusion hord
          · have hc : c = GCall.marketSell (normalizeSymbolId env sym)
                (if pos.contracts < pos.contracts * (sig.percent.getD 100 / 100) then pos.contracts
                 else pos.contracts * (sig.percent.getD 100 / 100)) true := by
              simpa using hm'
            subst hc
            show (0 : ℚ) < (if pos.contracts < pos.contracts * (sig.percent.getD 100 / 100)
                then pos.contracts else pos.contracts * (sig.percent.getD 100 / 100))
            split
            · exact getPositionOpt_pos hgp
            · exact h2
  · intro c hm hord
    dsimp only [shortExit, getPosition] at hm
    by_cases h1 : (sig.percent.getD 100 ≤ 0 ∨ 100 < sig.percent.getD 100)
    · rw [if_pos h1] at hm
      simp at hm
    · rw [if_neg h1] at hm
      rcases hgp : getPositionOpt env "short" with _ | pos <;> rw [hgp] at hm
      · rw [getPosTr_no_order (show c ∈ (getPosition env sym "short").2 from hm)] at hord
        exact Bool.noConfusion hord
      · dsimp only at hm
        by_cases h2 : pos.contracts * (sig.percent.getD 100 / 100) ≤ 0
        · rw [if_pos h2] at hm
          rw [getPosTr_no_order (show c ∈ (getPosition env sym "short").2 from hm)] at hord
          exact Bool.noConfusion hord
        · rw [if_neg h2] at hm
          push_neg at h2
          rw [apply_ite Prod.snd, ite_self] at hm
          rcases List.mem_append.mp hm with hm' | hm'
          · rcases List.mem_append.mp hm' with hm'' | hm''
            · rw [getPosTr_no_order (show c ∈ (getPosition env sym "short").2 from hm'')] at hord
              exact Bool.noConfusion hord
            · rw [normTr_no_order hm''] at hord
              exact Bool.noConfusion hord
          · have hc : c = GCall.marketBuy (normalizeSymbolId env sym)
                (if pos.contracts < pos.contracts * (sig.percent.getD 100 / 100) then pos.contracts
                 else pos.contracts * (sig.percent.getD 100 / 100)) true := by
              simpa using hm'
            subst hc
            show (0 : ℚ) < (if pos.contracts < pos.contracts * (sig.percent.getD 100 / 100)
                then pos.contracts else pos.contracts * (sig.percent.getD 100 / 100))
            split
            · exact getPositionOpt_pos hgp
            · exact h2

/-- Witness for the amended C4 at a concrete input: the reduce-only sell
actually submitted when 50% of a 2-contract long position is closed has
positive quantity. -/
theorem C4_amended_exit_positive_quantity_witness :
    (0 : ℚ) < (GCall.marketSell "BTCUSDT" 1 true).qty :=
  (C4_amended_exit_positive_quantity
      { envScratch with positionsResp := some [⟨"long", 2⟩] } "BTCUSDT"
      { action := some "long_exit", symbol := some "BTCUSDT", exchange := none,
        leverage := none, amount := none, percent := some 50 }).1
    (GCall.marketSell "BTCUSDT" 1 true) (by decide) rfl

/-! ### Claim C5 -/

/-- Claim C5: an exit with percent `p` in `(0, 100]` acting on a resolved
position of size `S = contracts` submits exactly one close order (the
reduce-only market order opposite to the position side) with quantity
`S * (p / 100)`, and that quantity never exceeds `S` — with exact
arithmetic the clamp branch never fires and the quantity is exactly the
percent share. -/
theorem C5_close_quantity (env : Env) (sym : String) (sig : Signal) (p : ℚ) (pos : Position)
    (hp : sig.percent = some p) (h0 : 0 < p) (h100 : p ≤ 100) :
    (getPositionOpt env "long" = some pos →
      ((longExit env sym sig).2).filter GCall.isOrder
          = [GCall.marketSell (normalizeSymbolId env sym) (pos.contracts * (p / 100)) true]
        ∧ pos.contracts * (p / 100) ≤ pos.contracts)
    ∧ (getPositionOpt env "short" = some pos →
      ((shortExit env sym sig).2).filter GCall.isOrder
          = [GCall.marketBuy (normalizeSymbolId env sym) (pos.contracts * (p / 100)) true]
        ∧ pos.contracts * (p / 100) ≤ pos.contracts) := by
  have hvalid : ¬(p ≤ 0 ∨ 100 < p) := by
    push_neg
    exact ⟨h0, h100⟩
  constructor
  · intro hpos
    have hS := getPositionOpt_pos hpos
    have hcq : 0 < pos.contracts * (p / 100) := mul_pos hS (div_pos h0 (by norm_num))
    have hle : pos.contracts * (p / 100) ≤ pos.contracts := by
      have hp1 : p / 100 ≤ 1 := (div_le_one (by norm_num)).mpr h100
      calc pos.contracts * (p / 100) ≤ pos.contracts * 1 :=
            mul_le_mul_of_nonneg_left hp1 (le_of_lt hS)
        _ = pos.contracts := mul_one _
    refine ⟨?_, hle⟩
    dsimp only [longExit, getPosition]
    rw [hp]
    dsimp only [Option.getD_some]
    rw [if_neg hvalid, hpos]
    dsimp only
    rw [if_neg (not_le.mpr hcq), if_neg (not_lt.mpr hle)]
    have e2 := filter_normTr env sym GCall.isOrder rfl
    rw [apply_ite Prod.snd, ite_self]
    simp [List.filter_append, e2, GCall.isOrder]
    rfl
  · intro hpos
    have hS := getPositionOpt_pos hpos
    have hcq : 0 < pos.contracts * (p / 100) := mul_pos hS (div_pos h0 (by norm_num))
    have hle : pos.contracts * (p / 100) ≤ pos.contracts := by
      have hp1 : p / 100 ≤ 1 := (div_le_one (by norm_num)).mpr h100
      calc pos.contracts * (p / 100) ≤ pos.contracts * 1 :=
            mul_le_mul_of_nonneg_left hp1 (le_of_lt hS)
        _ = pos.contracts := mul_one _
    refine ⟨?_, hle⟩
    dsimp only [shortExit, getPosition]
    rw [hp]
    dsimp only [Option.getD_some]
    rw [if_neg hvalid, hpos]
    dsimp only
    rw [if_neg (not_le.mpr hcq), if_neg (not_lt.mpr hle)]
    have e2 := filter_normTr env sym GCall.isOrder rfl
    rw [apply_ite Prod.snd, ite_self]
    simp [List.filter_append, e2, GCall.isOrder]
    rfl

/-- Witness for C5 at a concrete input: closing 50% of a 2-contract long
position submits exactly one reduce-only sell of quantity `2 * (50/100)`,
which does not exceed 2. -/
theorem C5_close_quantity_witness :
    ((longExit { envScratch with positionsResp := some [⟨"long", 2⟩] } "BTCUSDT"
        { action := some "long_exit", symbol := some "BTCUSDT", exchange := none,
          leverage := none, amount := none, percent := some 50 }).2).filter GCall.isOrder
      = [GCall.marketSell
          (normalizeSymbolId { envScratch with positionsResp := some [⟨"long", 2⟩] } "BTCUSDT")
          ((2 : ℚ) * (50 / 100)) true]
    ∧ (2 : ℚ) * (50 / 100) ≤ 2 :=
  (C5_close_quantity { envScratch with positionsResp := some [⟨"long", 2⟩] } "BTCUSDT"
    { action := some "long_exit", symbol := some "BTCUSDT", exchange := none,
      leverage := none, amount := none, percent := some 50 } 50 ⟨"long", 2⟩
    rfl (by decide) (by decide)).1 (by decide)

/-! ### Claim C3 -/

/-- Counterexample to C3 as stated: with free balance `1000.001` and
`percent = 5` the unrounded amount is `50.00005`, but the engine stores
`round(·, 2) = 50` into the signal, so the amount used does not equal
`freeBalance * (percent / 100)` exactly — the claim omits the 2-decimal
rounding of line 118. -/
theorem C3_counterexample :
    (executeSignal ⟨true, 10⟩ ["binance"] { envScratch with balance := .ok (some (1000001/1000)) }
        { action := some "long_entry", symbol := some "BTCUSDT", exchange := none,
          leverage := some 10, amount := none, percent := some 5 }).1.sig.amount = some 50
    ∧ ((1000001 : ℚ)/1000) * (5 / 100) ≠ 50 :=
  ⟨by decide, by decide⟩

/-- Claim C3 (amended): for an entry signal with `percent` present and
`amount` absent, the compound block stores
`round₂(free * (percent/100))` after clamping the unrounded value up to 11
when it is `< 10`; the cited instances hold (balance 1000, percent 5 ↦ 50;
balance 100, percent 5 ↦ 11); a failed balance fetch or a missing USDT
entry falls back to the fixed 100; and in every such case the signal still
proceeds to the action dispatch after the single balance fetch. -/
theorem C3_amended_compound_sizing (env : Env) (sig : Signal) (a : String) (p : ℚ)
    (ha : sig.action = some a) (he : hasEntryToken a = true)
    (hp : sig.percent = some p) (hamt : sig.amount = none) :
    (∀ free, env.balance = .ok (some free) →
      applyCompound env sig
        = (some { sig with
              amount := some (pyRound2 (if free * (p / 100) < 10 then 11 else free * (p / 100))) },
           [GCall.fetchBalance]))
    ∧ (env.balance = .err →
        applyCompound env sig = (some { sig with amount := some 100 }, [GCall.fetchBalance]))
    ∧ (env.balance = .ok none →
        applyCompound env sig = (some { sig with amount := some 100 }, [GCall.fetchBalance]))
    ∧ pyRound2 (if (1000 : ℚ) * (5 / 100) < 10 then 11 else 1000 * (5 / 100)) = 50
    ∧ pyRound2 (if (100 : ℚ) * (5 / 100) < 10 then 11 else 100 * (5 / 100)) = 11
    ∧ (∀ cfg : Config, ∀ conn : List String, cfg.enableTrading = true →
        conn.contains (exchangeName sig) = true →
        executeSignal cfg conn env sig
          = ((dispatchAction cfg env (dispatchSymbol sig) ((applyCompound env sig).1.getD sig)).1,
             GCall.fetchBalance
               :: (dispatchAction cfg env (dispatchSymbol sig)
                     ((applyCompound env sig).1.getD sig)).2)) := by
  have h1 : (sig.percent.isSome && sig.amount.isNone) = true := by
    rw [hp, hamt]
    rfl
  have hmain : applyCompound env sig
      = (match env.balance with
         | .err => (some { sig with amount := some 100 }, [GCall.fetchBalance])
         | .ok none => (some { sig with amount := some 100 }, [GCall.fetchBalance])
         | .ok (some free) =>
            (some { sig with
                amount := some (pyRound2 (if free * (p / 100) < 10 then 11 else free * (p / 100))) },
             [GCall.fetchBalance])) := by
    unfold applyCompound
    rw [if_pos h1, ha]
    dsimp only
    rw [if_pos he, hp]
  refine ⟨?_, ?_, ?_, by decide, by decide, ?_⟩
  · intro free hb
    rw [hmain, hb]
  · intro hb
    rw [hmain, hb]
  · intro hb
    rw [hmain, hb]
  · intro cfg conn hen hc
    rcases hb : env.balance with _ | fo
    · have hAC : applyCompound env sig
          = (some { sig with amount := some 100 }, [GCall.fetchBalance]) := by
        rw [hmain, hb]
      have hd := executeSignal_dispatch hen hc (by rw [hAC])
      rw [hd, hAC]
      simp
    · rcases fo with _ | free
      · have hAC : applyCompound env sig
            = (some { sig with amount := some 100 }, [GCall.fetchBalance]) := by
          rw [hmain, hb]
        have hd := executeSignal_dispatch hen hc (by rw [hAC])
        rw [hd, hAC]
        simp
      · have hAC : applyCompound env sig
            = (some { sig with
                  amount := some (pyRound2 (if free * (p / 100) < 10 then 11 else free * (p / 100))) },
               [GCall.fetchBalance]) := by
          rw [hmain, hb]
        have hd := executeSignal_dispatch hen hc (by rw [hAC])
        rw [hd, hAC]
        simp

/-- Witness for the amended C3 at a concrete input: free balance 1000 with
`percent = 5` stores the rounded amount (50) into the signal after one
balance fetch. -/
theorem C3_amended_compound_sizing_witness :
    applyCompound envScratch
        { action := some "long_entry", symbol := some "BTCUSDT", exchange := none,
          leverage := none, amount := none, percent := some 5 }
      = (some { action := some "long_entry", symbol := some "BTCUSDT", exchange := none,
                leverage := none,
                amount := some (pyRound2 (if (1000 : ℚ) * (5 / 100) < 10 then 11
                                          else 1000 * (5 / 100))),
                percent := some 5 },
         [GCall.fetchBalance]) :=
  (C3_amended_compound_sizing envScratch
    { action := some "long_entry", symbol := some "BTCUSDT", exchange := none,
      leverage := none, amount := none, percent := some 5 } "long_entry" 5
    rfl (by decide) rfl rfl).1 1000 rfl

/-! ### Claim C9 -/

theorem executeSignal_sig_cases (cfg : Config) (conn : List String) (env : Env) (sig : Signal) :
    (executeSignal cfg conn env sig).1.sig = sig
    ∨ ∃ s', (applyCompound env sig).1 = some s'
        ∧ (executeSignal cfg conn env sig).1.sig = s' := by
  unfold executeSignal
  by_cases hen : (!cfg.enableTrading) = true
  · rw [if_pos hen]
    exact Or.inl rfl
  · rw [if_neg hen]
    by_cases hc : (!(conn.contains (exchangeName sig))) = true
    · rw [if_pos hc]
      exact Or.inl rfl
    · rw [if_neg hc]
      rcases hAC : applyCompound env sig with ⟨os, tr⟩
      rcases os with _ | s'
      · exact Or.inl rfl
      · right
        refine ⟨s', rfl, ?_⟩
        have hsig := dispatchAction_sig cfg env (dispatchSymbol sig) s'
        rcases hd : dispatchAction cfg env (dispatchSymbol sig) s' with ⟨res, trD⟩
        rw [hd] at hsig
        dsimp only
        rw [hd]
        exact hsig

/-- Counterexample to C9 as stated: a percent-sized entry mutates the
signal dict — the echoed signal carries the freshly written `amount` field
(50), so it differs from the signal as received. -/
theorem C9_counterexample :
    (executeSignal ⟨true, 10⟩ ["binance"] envScratch
        { action := some "long_entry", symbol := some "BTCUSDT", exchange := none,
          leverage := some 10, amount := none, percent := some 5 }).1.sig
      ≠ { action := some "long_entry", symbol := some "BTCUSDT", exchange := none,
          leverage := some 10, amount := none, percent := some 5 } := by
  decide

/-- Claim C9 (amended): the dispatcher mutates the signal in exactly one
way — percent-based entry sizing may write the computed `amount` into a
signal that had none.  Every other field is preserved in the echoed
signal, and a signal with no `percent` field or with an `amount` field is
echoed back exactly as received. -/
theorem C9_amended_signal_frame (cfg : Config) (conn : List String) (env : Env) (sig : Signal) :
    (executeSignal cfg conn env sig).1.sig.action = sig.action
    ∧ (executeSignal cfg conn env sig).1.sig.symbol = sig.symbol
    ∧ (executeSignal cfg conn env sig).1.sig.exchange = sig.exchange
    ∧ (executeSignal cfg conn env sig).1.sig.leverage = sig.leverage
    ∧ (executeSignal cfg conn env sig).1.sig.percent = sig.percent
    ∧ ((executeSignal cfg conn env sig).1.sig.amount = sig.amount ∨ sig.amount = none)
    ∧ (sig.percent = none → (executeSignal cfg conn env sig).1.sig = sig)
    ∧ (sig.amount.isSome = true → (executeSignal cfg conn env sig).1.sig = sig) := by
  rcases executeSignal_sig_cases cfg conn env sig with h | ⟨s', hAC, h⟩
  · rw [h]
    exact ⟨rfl, rfl, rfl, rfl, rfl, Or.inl rfl, fun _ => rfl, fun _ => rfl⟩
  · obtain ⟨f1, f2, f3, f4, f5⟩ := applyCompound_fields hAC
    rw [h]
    refine ⟨f1, f2, f3, f4, f5, ?_, ?_, ?_⟩
    · rcases applyCompound_cases env sig with h' | ⟨_, h'⟩ | ⟨hamt, v, h'⟩
      · rw [h'] at hAC
        have h2 := Option.some.inj hAC
        exact Or.inl (by rw [← h2])
      · rw [h'] at hAC
        exact Option.noConfusion hAC
      · exact Or.inr hamt
    · intro hpct
      have h2 := applyCompound_skip_percent env hpct
      rw [h2] at hAC
      exact (Option.some.inj hAC).symm
    · intro hsome
      have h2 := applyCompound_skip_amount env hsome
      rw [h2] at hAC
      exact (Option.some.inj hAC).symm

/-- Witness for the amended C9 at a concrete input: an exit signal (no
percent-sizing involved) is echoed back exactly as received. -/
theorem C9_amended_signal_frame_witness :
    (executeSignal ⟨true, 10⟩ ["binance"] envScratch
        { action := some "long_exit", symbol := some "BTCUSDT", exchange := none,
          leverage := none, amount := none, percent := none }).1.sig
      = { action := some "long_exit", symbol := some "BTCUSDT", exchange := none,
          leverage := none, amount := none, percent := none } :=
  (C9_amended_signal_frame ⟨true, 10⟩ ["binance"] envScratch
    { action := some "long_exit", symbol := some "BTCUSDT", exchange := none,
      leverage := none, amount := none, percent := none }).2.2.2.2.2.2.1 rfl

/-! ### Claim C8 -/

/-- Counterexample to C8 as stated: the code strips EVERY occurrence of
`".P"` (Python `str.replace`), not only a suffix.  For the ticker
`"BTC.PUSDT"` (no market matches at all) the claim predicts the
suffix-stripped ticker `"BTC.PUSDT"` back, but `_normalize_symbol` returns
`"BTCUSDT"`. -/
theorem C8_counterexample :
    (normalizeSymbol envScratch "BTC.PUSDT").1 = "BTCUSDT"
    ∧ specSuffixStripUpper "BTC.PUSDT" = "BTC.PUSDT"
    ∧ ("BTCUSDT" : String) ≠ "BTC.PUSDT" :=
  ⟨by decide, by decide, by decide⟩

/-- Claim C8 (amended): symbol normalization never raises and follows the
fallback chain, where the stripping step removes every `".P"` occurrence
(not only a suffix) before upper-casing, and the unified `BASE/USDT:USDT`
retry additionally requires the stripped ticker to be longer than 4
characters: a direct market hit returns that market's id; otherwise a
unified-form hit returns that id; with no match the stripped ticker itself
is returned; on a market-load error the already-stripped ticker is
stripped once more and returned.  `"GASUSDT.P"` resolves to the
`"GAS/USDT:USDT"` market's id when only that market exists, and to
`"GASUSDT"` when nothing matches. -/
theorem C8_amended_symbol_normalization (env : Env) (ticker : String)
    (hb : env.isBinance = true) :
    (env.marketsOk = true →
      (∀ id, lookupMarket env.markets (stripUpper ticker) = some id →
        (normalizeSymbol env ticker).1 = id)
      ∧ (lookupMarket env.markets (stripUpper ticker) = none →
          strLen (stripUpper ticker) > 4 → endsWithStr (stripUpper ticker) "USDT" = true →
          ∀ id, lookupMarket env.markets
              (dropRightStr (stripUpper ticker) 4 ++ "/USDT:USDT") = some id →
            (normalizeSymbol env ticker).1 = id)
      ∧ (lookupMarket env.markets (stripUpper ticker) = none →
          lookupMarket env.markets (dropRightStr (stripUpper ticker) 4 ++ "/USDT:USDT") = none →
          (normalizeSymbol env ticker).1 = stripUpper ticker)
      ∧ (lookupMarket env.markets (stripUpper ticker) = none →
          ¬(strLen (stripUpper ticker) > 4 ∧ endsWithStr (stripUpper ticker) "USDT" = true) →
          (normalizeSymbol env ticker).1 = stripUpper ticker))
    ∧ (env.marketsOk = false →
        (normalizeSymbol env ticker).1 = stripUpper (stripUpper ticker))
    ∧ (normalizeSymbol { envScratch with markets := [("GAS/USDT:USDT", "GASUSDTPERP")] }
        "GASUSDT.P").1 = "GASUSDTPERP"
    ∧ (normalizeSymbol envScratch "GASUSDT.P").1 = "GASUSDT" := by
  refine ⟨?_, ?_, by decide, by decide⟩
  · intro hM
    refine ⟨?_, ?_, ?_, ?_⟩
    · intro id hdir
      show normalizeSymbolId env ticker = id
      simp [normalizeSymbolId, hb, hM, hdir]
    · intro hdir h4 hUS id huni
      show normalizeSymbolId env ticker = id
      simp [normalizeSymbolId, hb, hM, hdir, h4, hUS, huni]
    · intro hdir huni
      show normalizeSymbolId env ticker = stripUpper ticker
      by_cases hcond : (decide (strLen (stripUpper ticker) > 4)
          && endsWithStr (stripUpper ticker) "USDT") = true
      · simp [normalizeSymbolId, hb, hM, hdir, hcond, huni]
      · have hcf : (decide (strLen (stripUpper ticker) > 4)
            && endsWithStr (stripUpper ticker) "USDT") = false := by
          revert hcond
          cases (decide (strLen (stripUpper ticker) > 4)
            && endsWithStr (stripUpper ticker) "USDT") <;> simp
        simp [normalizeSymbolId, hb, hM, hdir, hcf]
    · intro hdir hcond
      show normalizeSymbolId env ticker = stripUpper ticker
      have hcf : (decide (strLen (stripUpper ticker) > 4)
          && endsWithStr (stripUpper ticker) "USDT") = false := by
        rcases hcb : (decide (strLen (stripUpper ticker) > 4)
            && endsWithStr (stripUpper ticker) "USDT") with _ | _
        · rfl
        · rcases Bool.and_eq_true_iff.mp hcb with ⟨hA, hB⟩
          exact absurd ⟨of_decide_eq_true hA, hB⟩ hcond
      simp [normalizeSymbolId, hb, hM, hdir, hcf]
  · intro hM
    show normalizeSymbolId env ticker = stripUpper (stripUpper ticker)
    simp [normalizeSymbolId, hb, hM]

/-- Witness for the amended C8 at a concrete input: a direct market hit
returns that market's id. -/
theorem C8_amended_symbol_normalization_witness :
    (normalizeSymbol { envScratch with markets := [("GASUSDT", "GASDIRECT")] } "gasusdt").1
      = "GASDIRECT" :=
  ((C8_amended_symbol_normalization { envScratch with markets := [("GASUSDT", "GASDIRECT")] }
      "gasusdt" rfl).1 rfl).1 "GASDIRECT" (by decide)

/-! ### Claim C1 -/

theorem shortExit_full (env : Env) (sym : String) {pos : Position}
    (hpos : getPositionOpt env "short" = some pos) :
    shortExit env sym synthPercent100
      = (if env.buyOk (normalizeSymbolId env sym) pos.contracts true
           then { success := true, message := shortExitOkMsg, sig := synthPercent100 }
           else { success := false, message := shortExitFailMsg, sig := synthPercent100 },
         (getPosition env sym "short").2 ++ (normalizeSymbol env sym).2
           ++ [GCall.marketBuy (normalizeSymbolId env sym) pos.contracts true]) := by
  have hS := getPositionOpt_pos hpos
  dsimp only [shortExit, getPosition, synthPercent100, Option.getD, normalizeSymbol]
  rw [if_neg (by norm_num : ¬((100 : ℚ) ≤ 0 ∨ (100 : ℚ) < 100)), hpos]
  dsimp only
  rw [show ((100 : ℚ) / 100) = 1 from by norm_num, mul_one]
  rw [if_neg (not_le.mpr hS), if_neg (lt_irrefl pos.contracts)]
  by_cases hbOk : env.buyOk (normalizeSymbolId env sym) pos.contracts true = true
  · rw [if_pos hbOk, if_pos hbOk]
  · rw [if_neg hbOk, if_neg hbOk]

theorem longExit_full (env : Env) (sym : String) {pos : Position}
    (hpos : getPositionOpt env "long" = some pos) :
    longExit env sym synthPercent100
      = (if env.sellOk (normalizeSymbolId env sym) pos.contracts true
           then { success := true, message := longExitOkMsg, sig := synthPercent100 }
           else { success := false, message := longExitFailMsg, sig := synthPercent100 },
         (getPosition env sym "long").2 ++ (normalizeSymbol env sym).2
           ++ [GCall.marketSell (normalizeSymbolId env sym) pos.contracts true]) := by
  have hS := getPositionOpt_pos hpos
  dsimp only [longExit, getPosition, synthPercent100, Option.getD, normalizeSymbol]
  rw [if_neg (by norm_num : ¬((100 : ℚ) ≤ 0 ∨ (100 : ℚ) < 100)), hpos]
  dsimp only
  rw [show ((100 : ℚ) / 100) = 1 from by norm_num, mul_one]
  rw [if_neg (not_le.mpr hS), if_neg (lt_irrefl pos.contracts)]
  by_cases hsOk : env.sellOk (normalizeSymbolId env sym) pos.contracts true = true
  · rw [if_pos hsOk, if_pos hsOk]
  · rw [if_neg hsOk, if_neg hsOk]

theorem longEntry_flip {cfg : Config} {env : Env} {sym : String} {sig : Signal} {pos : Position}
    (hlong : getPositionOpt env "long" = none) (hshort : getPositionOpt env "short" = some pos) :
    longEntry cfg env sym sig
      = (if env.buyOk (normalizeSymbolId env sym) pos.contracts true
           then ((longEntryOrder cfg env sym sig).1,
                 (getPosition env sym "long").2 ++ (getPosition env sym "short").2
                   ++ ((getPosition env sym "short").2 ++ (normalizeSymbol env sym).2
                       ++ [GCall.marketBuy (normalizeSymbolId env sym) pos.contracts true])
                   ++ (longEntryOrder cfg env sym sig).2)
           else ({ success := false, message := flipShortFailPrefix ++ shortExitFailMsg,
                   sig := sig },
                 (getPosition env sym "long").2 ++ (getPosition env sym "short").2
                   ++ ((getPosition env sym "short").2 ++ (normalizeSymbol env sym).2
                       ++ [GCall.marketBuy (normalizeSymbolId env sym) pos.contracts true]))) := by
  dsimp only [longEntry, getPosition]
  rw [hlong, hshort]
  dsimp only
  rw [shortExit_full env sym hshort]
  dsimp only
  by_cases hbOk : env.buyOk (normalizeSymbolId env sym) pos.contracts true = true
  · rw [if_pos hbOk, if_pos hbOk]
    dsimp only
    rw [if_pos rfl]
    rcases hoe : longEntryOrder cfg env sym sig with ⟨resE, trE⟩
    rfl
  · rw [if_neg hbOk, if_neg hbOk]
    dsimp only
    rw [if_neg (by simp : ¬(false = true))]
    rfl

theorem shortEntry_flip {cfg : Config} {env : Env} {sym : String} {sig : Signal} {pos : Position}
    (hshort : getPositionOpt env "short" = none) (hlong : getPositionOpt env "long" = some pos) :
    shortEntry cfg env sym sig
      = (if env.sellOk (normalizeSymbolId env sym) pos.contracts true
           then ((shortEntryOrder cfg env sym sig).1,
                 (getPosition env sym "long").2 ++ (getPosition env sym "short").2
                   ++ ((getPosition env sym "long").2 ++ (normalizeSymbol env sym).2
                       ++ [GCall.marketSell (normalizeSymbolId env sym) pos.contracts true])
                   ++ (shortEntryOrder cfg env sym sig).2)
           else ({ success := false, message := flipLongFailPrefix ++ longExitFailMsg,
                   sig := sig },
                 (getPosition env sym "long").2 ++ (getPosition env sym "short").2
                   ++ ((getPosition env sym "long").2 ++ (normalizeSymbol env sym).2
                       ++ [GCall.marketSell (normalizeSymbolId env sym) pos.contracts true]))) := by
  dsimp only [shortEntry, getPosition]
  rw [hshort, hlong]
  dsimp only
  rw [longExit_full env sym hlong]
  dsimp only
  by_cases hsOk : env.sellOk (normalizeSymbolId env sym) pos.contracts true = true
  · rw [if_pos hsOk, if_pos hsOk]
    dsimp only
    rw [if_pos rfl]
    rcases hoe : shortEntryOrder cfg env sym sig with ⟨resE, trE⟩
    rfl
  · rw [if_neg hsOk, if_neg hsOk]
    dsimp only
    rw [if_neg (by simp : ¬(false = true))]
    rfl

theorem filter_longEntryOrderTr (cfg : Config) (env : Env) (sym : String) (sig : Signal)
    (p : GCall → Bool)
    (hLM : p GCall.loadMarkets = false)
    (hSL : ∀ lv s, p (GCall.setLeverage lv s) = false)
    (hFT : ∀ s, p (GCall.fetchTicker s) = false)
    (hMB : ∀ s q, p (GCall.marketBuy s q false) = false) :
    ((longEntryOrder cfg env sym sig).2).filter p = [] := by
  dsimp only [longEntryOrder, normalizeSymbol]
  rcases ht : env.tickerLast with _ | price
  · dsimp only
    by_cases hbin : env.isBinance = true <;>
      simp [hbin, List.filter_append, hLM, hSL, hFT]
  · dsimp only
    by_cases hpz : price = 0
    · rw [if_pos hpz]
      by_cases hbin : env.isBinance = true <;>
        simp [hbin, List.filter_append, hLM, hSL, hFT]
    · rw [if_neg hpz]
      rw [apply_ite Prod.snd, ite_self]
      by_cases hbin : env.isBinance = true <;>
        simp [hbin, List.filter_append, hLM, hSL, hFT, hMB]

theorem filter_shortEntryOrderTr (cfg : Config) (env : Env) (sym : String) (sig : Signal)
    (p : GCall → Bool)
    (hLM : p GCall.loadMarkets = false)
    (hSL : ∀ lv s, p (GCall.setLeverage lv s) = false)
    (hFT : ∀ s, p (GCall.fetchTicker s) = false)
    (hMS : ∀ s q, p (GCall.marketSell s q false) = false) :
    ((shortEntryOrder cfg env sym sig).2).filter p = [] := by
  dsimp only [shortEntryOrder, normalizeSymbol]
  rcases ht : env.tickerLast with _ | price
  · dsimp only
    by_cases hbin : env.isBinance = true <;>
      simp [hbin, List.filter_append, hLM, hSL, hFT]
  · dsimp only
    by_cases hpz : price = 0
    · rw [if_pos hpz]
      by_cases hbin : env.isBinance = true <;>
        simp [hbin, List.filter_append, hLM, hSL, hFT]
    · rw [if_neg hpz]
      rw [apply_ite Prod.snd, ite_self]
      by_cases hbin : env.isBinance = true <;>
        simp [hbin, List.filter_append, hLM, hSL, hFT, hMS]

/-- Claim C1: a long-entry dispatched over an open short position (no long
open) runs exactly one synthetic 100% short exit — the trace contains
exactly one reduce-only buy, for the full position size — and it precedes
any entry buy; if that close's order is refused by the venue, the result is
`success = false` with a message that surfaces the close failure, and no
entry buy order is placed.  The mirror holds for a short entry over an open
long position. -/
theorem C1_flip_before_entry (cfg : Config) (conn : List String) (env : Env)
    (sig : Signal) (pos : Position)
    (hen : cfg.enableTrading = true) (hc : conn.contains (exchangeName sig) = true) :
    (sig.action = some "long_entry" →
      getPositionOpt env "long" = none → getPositionOpt env "short" = some pos →
      ((executeSignal cfg conn env sig).2).filter GCall.isRoBuy
          = [GCall.marketBuy (normalizeSymbolId env (dispatchSymbol sig)) pos.contracts true]
      ∧ (∃ t1 t2, (executeSignal cfg conn env sig).2
            = t1 ++ GCall.marketBuy (normalizeSymbolId env (dispatchSymbol sig))
                pos.contracts true :: t2
          ∧ t1.filter GCall.isPlainBuy = [] ∧ t1.filter GCall.isRoBuy = [])
      ∧ (env.buyOk (normalizeSymbolId env (dispatchSymbol sig)) pos.contracts true = false →
          (executeSignal cfg conn env sig).1.success = false
          ∧ (executeSignal cfg conn env sig).1.message
              = flipShortFailPrefix ++ shortExitFailMsg
          ∧ ((executeSignal cfg conn env sig).2).filter GCall.isPlainBuy = []))
    ∧ (sig.action = some "short_entry" →
      getPositionOpt env "short" = none → getPositionOpt env "long" = some pos →
      ((executeSignal cfg conn env sig).2).filter GCall.isRoSell
          = [GCall.marketSell (normalizeSymbolId env (dispatchSymbol sig)) pos.contracts true]
      ∧ (∃ t1 t2, (executeSignal cfg conn env sig).2
            = t1 ++ GCall.marketSell (normalizeSymbolId env (dispatchSymbol sig))
                pos.contracts true :: t2
          ∧ t1.filter GCall.isPlainSell = [] ∧ t1.filter GCall.isRoSell = [])
      ∧ (env.sellOk (normalizeSymbolId env (dispatchSymbol sig)) pos.contracts true = false →
          (executeSignal cfg conn env sig).1.success = false
          ∧ (executeSignal cfg conn env sig).1.message
              = flipLongFailPrefix ++ longExitFailMsg
          ∧ ((executeSignal cfg conn env sig).2).filter GCall.isPlainSell = [])) := by
  constructor
  · intro hact hlong hshort
    obtain ⟨s', trB, hAC, hact', hpct, hTB⟩ := applyCompound_of_action hact
    have hd := executeSignal_dispatch hen hc (by rw [hAC])
    rw [hd, dispatchAction_long_entry hact', longEntry_flip hlong hshort]
    have eC1 := filter_compoundTr env sig GCall.isRoBuy rfl
    have eL1 := filter_getPosTr env (dispatchSymbol sig) "long" GCall.isRoBuy rfl (fun _ => rfl)
    have eS1 := filter_getPosTr env (dispatchSymbol sig) "short" GCall.isRoBuy rfl (fun _ => rfl)
    have eN1 := filter_normTr env (dispatchSymbol sig) GCall.isRoBuy rfl
    have eC2 := filter_compoundTr env sig GCall.isPlainBuy rfl
    have eL2 := filter_getPosTr env (dispatchSymbol sig) "long" GCall.isPlainBuy rfl (fun _ => rfl)
    have eS2 := filter_getPosTr env (dispatchSymbol sig) "short" GCall.isPlainBuy rfl (fun _ => rfl)
    have eN2 := filter_normTr env (dispatchSymbol sig) GCall.isPlainBuy rfl
    by_cases hbOk : env.buyOk (normalizeSymbolId env (dispatchSymbol sig)) pos.contracts true
        = true
    · rw [if_pos hbOk]
      have eE1 := filter_longEntryOrderTr cfg env (dispatchSymbol sig) s' GCall.isRoBuy
        rfl (fun _ _ => rfl) (fun _ => rfl) (fun _ _ => rfl)
      refine ⟨?_, ?_, ?_⟩
      · simp [List.filter_append, eC1, eL1, eS1, eN1, eE1, GCall.isRoBuy]
      · refine ⟨(applyCompound env sig).2
            ++ ((getPosition env (dispatchSymbol sig) "long").2
              ++ (getPosition env (dispatchSymbol sig) "short").2
              ++ ((getPosition env (dispatchSymbol sig) "short").2
                ++ (normalizeSymbol env (dispatchSymbol sig)).2)),
          (longEntryOrder cfg env (dispatchSymbol sig) s').2, ?_, ?_, ?_⟩
        · simp [List.append_assoc]
        · simp [List.filter_append, eC2, eL2, eS2, eN2]
        · simp [List.filter_append, eC1, eL1, eS1, eN1]
      · intro hbF
        rw [hbF] at hbOk
        exact Bool.noConfusion hbOk
    · rw [if_neg hbOk]
      refine ⟨?_, ?_, ?_⟩
      · simp [List.filter_append, eC1, eL1, eS1, eN1, GCall.isRoBuy]
      · refine ⟨(applyCompound env sig).2
            ++ ((getPosition env (dispatchSymbol sig) "long").2
              ++ (getPosition env (dispatchSymbol sig) "short").2
              ++ ((getPosition env (dispatchSymbol sig) "short").2
                ++ (normalizeSymbol env (dispatchSymbol sig)).2)),
          [], ?_, ?_, ?_⟩
        · simp [List.append_assoc]
        · simp [List.filter_append, eC2, eL2, eS2, eN2]
        · simp [List.filter_append, eC1, eL1, eS1, eN1]
      · intro hbF
        refine ⟨rfl, rfl, ?_⟩
        simp [List.filter_append, eC2, eL2, eS2, eN2, GCall.isPlainBuy]
  · intro hact hshort hlong
    obtain ⟨s', trB, hAC, hact', hpct, hTB⟩ := applyCompound_of_action hact
    have hd := executeSignal_dispatch hen hc (by rw [hAC])
    rw [hd, dispatchAction_short_entry hact', shortEntry_flip hshort hlong]
    have eC1 := filter_compoundTr env sig GCall.isRoSell rfl
    have eL1 := filter_getPosTr env (dispatchSymbol sig) "long" GCall.isRoSell rfl (fun _ => rfl)
    have eS1 := filter_getPosTr env (dispatchSymbol sig) "short" GCall.isRoSell rfl (fun _ => rfl)
    have eN1 := filter_normTr env (dispatchSymbol sig) GCall.isRoSell rfl
    have eC2 := filter_compoundTr env sig GCall.isPlainSell rfl
    have eL2 := filter_getPosTr env (dispatchSymbol sig) "long" GCall.isPlainSell rfl (fun _ => rfl)
    have eS2 := filter_getPosTr env (dispatchSymbol sig) "short" GCall.isPlainSell rfl (fun _ => rfl)
    have eN2 := filter_normTr env (dispatchSymbol sig) GCall.isPlainSell rfl
    by_cases hsOk : env.sellOk (normalizeSymbolId env (dispatchSymbol sig)) pos.contracts true
        = true
    · rw [if_pos hsOk]
      have eE1 := filter_shortEntryOrderTr cfg env (dispatchSymbol sig) s' GCall.isRoSell
        rfl (fun _ _ => rfl) (fun _ => rfl) (fun _ _ => rfl)
      refine ⟨?_, ?_, ?_⟩
      · simp [List.filter_append, eC1, eL1, eS1, eN1, eE1, GCall.isRoSell]
      · refine ⟨(applyCompound env sig).2
            ++ ((getPosition env (dispatchSymbol sig) "long").2
              ++ (getPosition env (dispatchSymbol sig) "short").2
              ++ ((getPosition env (dispatchSymbol sig) "long").2
                ++ (normalizeSymbol env (dispatchSymbol sig)).2)),
          (shortEntryOrder cfg env (dispatchSymbol sig) s').2, ?_, ?_, ?_⟩
        · simp [List.append_assoc]
        · simp [List.filter_append, eC2, eL2, eS2, eN2]
        · simp [List.filter_append, eC1, eL1, eS1, eN1]
      · intro hsF
        rw [hsF] at hsOk
        exact Bool.noConfusion hsOk
    · rw [if_neg hsOk]
      refine ⟨?_, ?_, ?_⟩
      · simp [List.filter_append, eC1, eL1, eS1, eN1, GCall.isRoSell]
      · refine ⟨(applyCompound env sig).2
            ++ ((getPosition env (dispatchSymbol sig) "long").2
              ++ (getPosition env (dispatchSymbol sig) "short").2
              ++ ((getPosition env (dispatchSymbol sig) "long").2
                ++ (normalizeSymbol env (dispatchSymbol sig)).2)),
          [], ?_, ?_, ?_⟩
        · simp [List.append_assoc]
        · simp [List.filter_append, eC2, eL2, eS2, eN2]
        · simp [List.filter_append, eC1, eL1, eS1, eN1]
      · intro hsF
        refine ⟨rfl, rfl, ?_⟩
        simp [List.filter_append, eC2, eL2, eS2, eN2, GCall.isPlainSell]

/-- Witness for C1 at a concrete input: a long entry over an open
3-contract short position performs exactly one reduce-only buy of the full
size 3. -/
theorem C1_flip_before_entry_witness :
    ((executeSignal ⟨true, 10⟩ ["binance"]
        { envScratch with positionsResp := some [⟨"short", 3⟩] }
        { action := some "long_entry", symbol := some "BTCUSDT", exchange := none,
          leverage := none, amount := some 100, percent := none }).2).filter GCall.isRoBuy
      = [GCall.marketBuy
          (normalizeSymbolId { envScratch with positionsResp := some [⟨"short", 3⟩] }
            (dispatchSymbol
              { action := some "long_entry", symbol := some "BTCUSDT", exchange := none,
                leverage := none, amount := some 100, percent := none }))
          (3 : ℚ) true] :=
  ((C1_flip_before_entry ⟨true, 10⟩ ["binance"]
      { envScratch with positionsResp := some [⟨"short", 3⟩] }
      { action := some "long_entry", symbol := some "BTCUSDT", exchange := none,
        leverage := none, amount := some 100, percent := none } ⟨"short", 3⟩
      rfl (by decide)).1 rfl (by decide) (by decide)).1

end KJBot
